import Mathlib

/-!
Verification of the real-time presence and message fan-out subsystem of
WorkFlowConnect.

Server side: `backend/socket/socketHandler.js` keeps a `connectedUsers`
map from user id to socket id, and registers per-socket handlers for
`sendMessage`, `editMessage`, `deleteMessage`, `sendFile` and
`disconnect`.  Each handler is embedded below as a pure function from an
explicit server state (the `connectedUsers` map, the message store and a
trace of the storage mutations it performs) to a new state together with
the list of socket emissions it produces.  Fresh values the JS runtime
supplies (uuidv4, `new Date()`) are passed as parameters.

Client side: the chat context (`ChatContext.tsx`) is embedded as pure
state transformers over a `ClientState`; asynchronous REST calls the
handlers merely launch are recorded as effects.
-/

/-- A chat message, mirroring the `message` objects built by
`socketHandler.js` and the `MessageType` interface of the client
(`src/types/index.ts`).  JS `Date` timestamps are embedded as `Nat`
millisecond values (`getTime()`). -/
structure Message where
  id : String
  content : String
  chatId : String
  userId : String
  read : Bool
  deleted : Bool
  edited : Bool
  fileId : Option String
  fileName : Option String
  createdAt : Nat
  updatedAt : Nat
deriving DecidableEq

/-- A conversation record as seen through the storage collaborator:
an id plus its participant set (a list of user ids). -/
structure ChatRec where
  id : String
  participants : List String
deriving DecidableEq

/-- Arguments of a `fileModel.saveFile` call made by the `sendFile`
handler (the call itself is recorded in the storage trace). -/
structure FileRec where
  filename : String
  content_type : String
  size : Nat
  data : String
  uploaded_by : String
deriving DecidableEq

/-- Payload of a socket emission. -/
inductive EventPayload where
  | msg (m : Message)
  | msgId (id : String)
  | errMsg (s : String)
  | userRef (userId : String)
deriving DecidableEq

/-- One `io.to(socketId).emit(event, payload)` or
`socket.emit(event, payload)` call. -/
structure Emit where
  socketId : String
  event : String
  payload : EventPayload
deriving DecidableEq

/-- JS `Map` get: the value stored at `k`, if any. -/
def mapGet (m : List (String × String)) (k : String) : Option String :=
  (m.find? (fun p => p.1 == k)).map (fun p => p.2)

/-- JS `Map` has. -/
def mapHas (m : List (String × String)) (k : String) : Bool :=
  m.any (fun p => p.1 == k)

/-- JS `Map` set: replaces the value at `k` in place if present,
otherwise appends the new entry. -/
def mapSet (m : List (String × String)) (k v : String) : List (String × String) :=
  if mapHas m k then m.map (fun p => if p.1 == k then (k, v) else p)
  else m ++ [(k, v)]

/-- JS `Map` delete. -/
def mapDelete (m : List (String × String)) (k : String) : List (String × String) :=
  m.filter (fun p => !(p.1 == k))

/-- Server state threaded through the socket handlers: the
`connectedUsers` map, the transport-level set of open channels (owner,
socket id), the message store, and traces of the other storage
mutations (saved files, `updateLastMessageTime` calls). -/
structure ServerState where
  connectedUsers : List (String × String)
  openChannels : List (String × String)
  messages : List Message
  files : List FileRec
  touchedChats : List String
deriving DecidableEq

/-- Modelled from the spec: storage collaborator
`getConversationParticipants(conversationId) → set of principal ids`
(`chatModel.getChatParticipants`, whose source is not in the repository
snapshot). -/
def getChatParticipants (env : List ChatRec) (chatId : String) : List String :=
  ((env.find? (fun c => c.id == chatId)).map (fun c => c.participants)).getD []

/-- Modelled from the spec: storage collaborator
`isParticipant(conversationId, principalId) → bool`
(`chatModel.isParticipant`). -/
def isParticipant (env : List ChatRec) (chatId userId : String) : Bool :=
  (getChatParticipants env chatId).contains userId

/-- Modelled from the spec: storage collaborator
`getConversationsOf(principalId) → list` (`chatModel.getUserChats`). -/
def getUserChats (env : List ChatRec) (userId : String) : List ChatRec :=
  env.filter (fun c => c.participants.contains userId)

/-- Modelled from the spec: storage collaborator
`getMessageById(id) → Message` (`messageModel.getMessageById`); a
logically deleted row is still returned. -/
def getMessageById (store : List Message) (messageId : String) : Option Message :=
  store.find? (fun m => m.id == messageId)

/-- Modelled from the spec: storage collaborator
`updateMessage(id, fields)` (`messageModel.updateMessage`): updates the
given fields of the row with that id in place. -/
def updateMessage (store : List Message) (messageId : String)
    (f : Message → Message) : List Message :=
  store.map (fun m => if m.id == messageId then f m else m)

/-- The `participants.forEach` notification loop shared by the
handlers: for each participant that has an entry in `connectedUsers`,
emit the event to that participant's socket; absent participants are
skipped. -/
def notifyPresent (connected : List (String × String)) (participants : List String)
    (event : String) (payload : EventPayload) : List Emit :=
  participants.filterMap (fun p =>
    (mapGet connected p).map (fun sid => Emit.mk sid event payload))

namespace Server

/-- `isUserConnected` from the returned socket service object:
`connectedUsers.has(userId)`. -/
def isUserConnected (st : ServerState) (userId : String) : Bool :=
  mapHas st.connectedUsers userId

/-- The `io.on('connection')` handler body up to the event
registrations: record the socket in `connectedUsers`, record the open
channel, and notify the connected other participants of each of the
user's chats with `user:online`. -/
def connection (env : List ChatRec) (st : ServerState) (userId socketId : String) :
    ServerState × List Emit :=
  let st1 : ServerState :=
    { st with
      connectedUsers := mapSet st.connectedUsers userId socketId
      openChannels := st.openChannels ++ [(userId, socketId)] }
  let emits :=
    (getUserChats env userId).flatMap (fun chat =>
      notifyPresent st1.connectedUsers
        (chat.participants.filter (fun p => !(p == userId)))
        "user:online" (EventPayload.userRef userId))
  (st1, emits)

/-- The `socket.on('disconnect')` handler: delete the user from
`connectedUsers` (unconditionally — the map holds a single socket id
per user), close the channel, and notify the connected other
participants of each of the user's chats with `user:offline`. -/
def disconnect (env : List ChatRec) (st : ServerState) (userId socketId : String) :
    ServerState × List Emit :=
  let st1 : ServerState :=
    { st with
      connectedUsers := mapDelete st.connectedUsers userId
      openChannels := st.openChannels.filter (fun p => !(p == (userId, socketId))) }
  let emits :=
    (getUserChats env userId).flatMap (fun chat =>
      notifyPresent st1.connectedUsers
        (chat.participants.filter (fun p => !(p == userId)))
        "user:offline" (EventPayload.userRef userId))
  (st1, emits)

/-- The message object built by the `sendMessage` handler. -/
def mkSentMessage (newId chatId userId content : String) (now : Nat) : Message :=
  { id := newId, content := content, chatId := chatId, userId := userId,
    read := false, deleted := false, edited := false,
    fileId := none, fileName := none, createdAt := now, updatedAt := now }

/-- The `socket.on('sendMessage')` handler.  `newId` stands for the
`uuidv4()` result and `now` for `new Date()`. -/
def sendMessage (env : List ChatRec) (st : ServerState) (userId socketId : String)
    (chatId content : String) (newId : String) (now : Nat) : ServerState × List Emit :=
  if chatId == "" || content == "" then
    (st, [Emit.mk socketId "error" (EventPayload.errMsg "Datos incompletos para enviar mensaje")])
  else if !(isParticipant env chatId userId) then
    (st, [Emit.mk socketId "error" (EventPayload.errMsg "No eres participante de este chat")])
  else
    let message := mkSentMessage newId chatId userId content now
    let st1 : ServerState :=
      { st with
        messages := st.messages ++ [message]
        touchedChats := st.touchedChats ++ [chatId] }
    (st1, notifyPresent st.connectedUsers (getChatParticipants env chatId)
            "chat:message" (EventPayload.msg message))

/-- The `socket.on('editMessage')` handler.  A missing message makes
the JS body throw on `originalMessage.userId` and land in the `catch`,
which emits the generic edit error. -/
def editMessage (env : List ChatRec) (st : ServerState) (userId socketId : String)
    (messageId content : String) (now : Nat) : ServerState × List Emit :=
  if messageId == "" || content == "" then
    (st, [Emit.mk socketId "error" (EventPayload.errMsg "Datos incompletos para editar mensaje")])
  else
    match getMessageById st.messages messageId with
    | none => (st, [Emit.mk socketId "error" (EventPayload.errMsg "Error al editar mensaje")])
    | some originalMessage =>
      if !(originalMessage.userId == userId) then
        (st, [Emit.mk socketId "error" (EventPayload.errMsg "No tienes permiso para editar este mensaje")])
      else
        let updatedMessage :=
          { originalMessage with content := content, edited := true, updatedAt := now }
        let newStore :=
          updateMessage st.messages messageId
            (fun m => { m with content := content, edited := true })
        let st1 : ServerState := { st with messages := newStore }
        (st1, notifyPresent st.connectedUsers
                (getChatParticipants env originalMessage.chatId)
                "chat:message:update" (EventPayload.msg updatedMessage))

/-- The `socket.on('deleteMessage')` handler: marks the message deleted
(`updateMessage(messageId, { deleted: true })`) and notifies connected
participants with `chat:message:delete`. -/
def deleteMessage (env : List ChatRec) (st : ServerState) (userId socketId : String)
    (messageId : String) : ServerState × List Emit :=
  if messageId == "" then
    (st, [Emit.mk socketId "error" (EventPayload.errMsg "ID de mensaje requerido")])
  else
    match getMessageById st.messages messageId with
    | none => (st, [Emit.mk socketId "error" (EventPayload.errMsg "Error al eliminar mensaje")])
    | some originalMessage =>
      if !(originalMessage.userId == userId) then
        (st, [Emit.mk socketId "error" (EventPayload.errMsg "No tienes permiso para eliminar este mensaje")])
      else
        let newStore :=
          updateMessage st.messages messageId
            (fun m => { m with deleted := true })
        let st1 : ServerState := { st with messages := newStore }
        (st1, notifyPresent st.connectedUsers
                (getChatParticipants env originalMessage.chatId)
                "chat:message:delete" (EventPayload.msgId messageId))

end Server

/-- Base64 character payload a regex-group match carries cannot contain
a JS line terminator: `.` in the `sendFile` handler's regex
`/^data:(.+);base64,(.+)$/` matches any character except these. -/
def isLineTerminator (c : Char) : Bool :=
  c == '\n' || c == '\r' || c == '\u2028' || c == '\u2029'

/-- No character of the list is a line terminator. -/
def noLineTerminator (l : List Char) : Bool :=
  l.all (fun c => !(isLineTerminator c))

/-- The literal `;base64,` separator of the data-URI envelope. -/
def sepBase64 : List Char := ";base64,".toList

/-- Whether the regex `^data:(.+);base64,(.+)$` can split the part of
the input after `data:` at position `i`: the separator occurs there,
both groups are non-empty and neither group crosses a line
terminator. -/
def dataUriMatchAt (l : List Char) (i : Nat) : Bool :=
  decide (1 ≤ i) && sepBase64.isPrefixOf (l.drop i) && decide (i + 8 < l.length)
    && noLineTerminator (l.take i) && noLineTerminator (l.drop (i + 8))

/-- The `fileData.match(/^data:(.+);base64,(.+)$/)` step of the
`sendFile` handler: the greedy `(.+)` makes the regex split at the
last viable occurrence of `;base64,`.  Returns the media-type group and
the base64 data group on success. -/
def decodeDataUri (s : String) : Option (String × String) :=
  let cs := s.toList
  if "data:".toList.isPrefixOf cs then
    let body := cs.drop 5
    match ((List.range (body.length + 1)).filter (fun i => dataUriMatchAt body i)).getLast? with
    | some i => some (String.mk (body.take i), String.mk (body.drop (i + 8)))
    | none => none
  else none

/-- `Buffer.from(base64Data, 'base64').length` for canonical base64
input: three bytes per four characters, with trailing `=` padding not
counted. -/
def base64ByteLength (s : String) : Nat :=
  ((s.toList.reverse.dropWhile (fun c => c == '=')).length * 3) / 4

namespace Server

/-- The `socket.on('sendFile')` handler.  `newFileId` stands for the id
`fileModel.saveFile` returns and `newMsgId` for the `uuidv4()` result;
an absent `contentType` is the empty string and an absent `size` is
`0` (both are JS-falsy and defaulted by the handler). -/
def sendFile (env : List ChatRec) (st : ServerState) (userId socketId : String)
    (chatId filename contentType : String) (size : Nat) (fileData : String)
    (newFileId newMsgId : String) (now : Nat) : ServerState × List Emit :=
  if chatId == "" || filename == "" || fileData == "" then
    (st, [Emit.mk socketId "error" (EventPayload.errMsg "Datos incompletos para enviar archivo")])
  else if !(isParticipant env chatId userId) then
    (st, [Emit.mk socketId "error" (EventPayload.errMsg "No eres participante de este chat")])
  else
    match decodeDataUri fileData with
    | none =>
      (st, [Emit.mk socketId "error" (EventPayload.errMsg "Formato de archivo inválido")])
    | some md =>
      let base64Data := md.2
      let fileRec : FileRec :=
        { filename := filename
          content_type := if contentType == "" then "application/octet-stream" else contentType
          size := if size == 0 then base64ByteLength base64Data else size
          data := base64Data
          uploaded_by := userId }
      let message : Message :=
        { id := newMsgId, content := "Archivo: " ++ filename, chatId := chatId,
          userId := userId, read := false, deleted := false, edited := false,
          fileId := some newFileId, fileName := some filename,
          createdAt := now, updatedAt := now }
      let st1 : ServerState :=
        { st with
          files := st.files ++ [fileRec]
          messages := st.messages ++ [message]
          touchedChats := st.touchedChats ++ [chatId] }
      (st1, notifyPresent st.connectedUsers (getChatParticipants env chatId)
              "chat:message" (EventPayload.msg message))

end Server

/-- A conversation as the client caches it (`ChatType` of
`src/types/index.ts`). -/
structure ChatC where
  id : String
  isGroup : Bool
  participants : List String
  lastMessage : Option Message
deriving DecidableEq

/-- The local state of the chat context relevant to message
reconciliation: the chat list, the active chat, its loaded messages and
the unread counter. -/
structure ClientState where
  chats : List ChatC
  activeChat : Option ChatC
  activeChatMessages : List Message
  unreadMessagesCount : Nat
deriving DecidableEq

/-- An effect the client chat context performs besides updating its
local state: a socket emission, a REST fallback call, an asynchronous
reload or mark-as-read request, or a toast notification. -/
inductive ClientEffect where
  | emitSendMessage (chatId content : String)
  | emitEditMessage (messageId content : String)
  | emitDeleteMessage (messageId : String)
  | emitSendFile (chatId filename contentType : String) (size : Nat) (data : String)
  | restSendMessage (chatId content : String)
  | restUpdateMessage (messageId content : String)
  | restDeleteMessage (messageId : String)
  | loadMessages (chatId : String)
  | markChatAsRead (chatId : String)
  | toast (title description : String)
deriving DecidableEq

/-- The JS guard `!content.trim()`: `String.prototype.trim` yields the
empty (falsy) string exactly when every character of the content is
whitespace. -/
def trimIsEmpty (s : String) : Bool :=
  s.toList.all (fun c => c.isWhitespace)

namespace Client

/-- `updateChatWithLastMessage` of `ChatContext.tsx`: replace a chat's
cached last message with the incoming one when the chat matches and
either no last message is cached or the incoming one is strictly
newer. -/
def lastMessageUpdate (message : Message) (chat : ChatC) : ChatC :=
  if chat.id == message.chatId then
    match chat.lastMessage with
    | none => { chat with lastMessage := some message }
    | some lm =>
      if lm.createdAt < message.createdAt then { chat with lastMessage := some message }
      else chat
  else chat

/-- `updateChatWithLastMessage` maps `lastMessageUpdate` over the chat
list. -/
def updateChatWithLastMessage (chats : List ChatC) (message : Message) : List ChatC :=
  chats.map (lastMessageUpdate message)

/-- `handleNewMessage` of `ChatContext.tsx`.  The asynchronous
`markChatAsRead` REST round-trip it may launch is recorded as an
effect; its deferred local update is outside this handler's
synchronous body. -/
def handleNewMessage (currentUser : Option String) (st : ClientState)
    (message : Message) : ClientState × List ClientEffect :=
  let elseBranch : ClientState × List ClientEffect :=
    match currentUser with
    | some uid =>
      if !(message.userId == uid) then
        ({ st with unreadMessagesCount := st.unreadMessagesCount + 1 },
         [ClientEffect.toast "Nuevo mensaje"
            ("Tienes un nuevo mensaje en chat " ++ message.chatId)])
      else (st, [])
    | none => (st, [])
  let r :=
    match st.activeChat with
    | some ac =>
      if message.chatId == ac.id then
        ({ st with activeChatMessages := st.activeChatMessages ++ [message] },
         match currentUser with
         | some uid =>
           if !(message.userId == uid) then [ClientEffect.markChatAsRead message.chatId]
           else []
         | none => [])
      else elseBranch
    | none => elseBranch
  ({ r.1 with chats := updateChatWithLastMessage r.1.chats message }, r.2)

/-- The comparator `(a, b) => b.createdAt - a.createdAt` of
`handleMessageDelete`: `a` precedes `b` when `a` was created no earlier
than `b` (descending creation time). -/
def newerFirst (a b : Message) : Prop := b.createdAt ≤ a.createdAt

instance : DecidableRel newerFirst := fun a b => Nat.decLe b.createdAt a.createdAt

instance : IsTotal Message newerFirst := ⟨fun a b => Nat.le_total b.createdAt a.createdAt⟩

instance : IsTrans Message newerFirst := ⟨fun _ _ _ hab hbc => Nat.le_trans hbc hab⟩

/-- The per-chat update performed by `handleMessageDelete`: when the
deleted message was the chat's cached last message, recompute it as the
head of the loaded messages of this chat (minus the deleted one) sorted
by descending creation time, or `none` when none remains. -/
def deleteChatUpdate (loaded : List Message) (messageId : String) (chat : ChatC) : ChatC :=
  match chat.lastMessage with
  | some lm =>
    if lm.id == messageId then
      let remaining := loaded.filter (fun msg => !(msg.id == messageId) && msg.chatId == chat.id)
      let sorted := remaining.insertionSort newerFirst
      { chat with lastMessage := sorted.head? }
    else chat
  | none => chat

/-- `handleMessageDelete` of `ChatContext.tsx`: drop the message from
the active view and recompute each affected chat's last-message
projection from the (pre-delete) loaded message list captured by the
handler's closure. -/
def handleMessageDelete (st : ClientState) (messageId : String) : ClientState :=
  { st with
    activeChatMessages := st.activeChatMessages.filter (fun msg => !(msg.id == messageId))
    chats := st.chats.map (deleteChatUpdate st.activeChatMessages messageId) }

/-- Client `sendMessage` of `ChatContext.tsx`: a no-op unless a user is
authenticated, the chat id is non-empty and the trimmed content is
non-empty; then either a socket emission (when connected) or the REST
fallback followed by a reload. -/
def sendMessage (currentUser : Option String) (connected : Bool) (st : ClientState)
    (chatId content : String) : ClientState × List ClientEffect :=
  if currentUser.isNone || chatId == "" || trimIsEmpty content then (st, [])
  else if connected then (st, [ClientEffect.emitSendMessage chatId content])
  else (st, [ClientEffect.restSendMessage chatId content, ClientEffect.loadMessages chatId])

/-- Client `editMessage` of `ChatContext.tsx`: same guard as
`sendMessage`; the REST fallback reloads the active chat, if any. -/
def editMessage (currentUser : Option String) (connected : Bool) (st : ClientState)
    (messageId content : String) : ClientState × List ClientEffect :=
  if currentUser.isNone || messageId == "" || trimIsEmpty content then (st, [])
  else if connected then (st, [ClientEffect.emitEditMessage messageId content])
  else
    (st, ClientEffect.restUpdateMessage messageId content ::
      (match st.activeChat with
       | some ac => [ClientEffect.loadMessages ac.id]
       | none => []))

end Client

/-! ### Concrete instances used by witnesses and counterexamples -/

/-- A single conversation `c1` between users `u` and `v`. -/
def envUV : List ChatRec := [⟨"c1", ["u", "v"]⟩]

/-- The empty server state. -/
def emptyServer : ServerState := ⟨[], [], [], [], []⟩

/-- `v` connects on socket `sv`, then `u` connects twice (sockets `s1`
and `s2`: two devices of the same principal). -/
def stTwoDevices : ServerState :=
  (Server.connection envUV
    (Server.connection envUV
      (Server.connection envUV emptyServer "v" "sv").1 "u" "s1").1 "u" "s2").1

/-- The result of `u`'s first channel `s1` closing while `s2` is still
open. -/
def discNonLast : ServerState × List Emit :=
  Server.disconnect envUV stTwoDevices "u" "s1"

/-- A message from `u` in `c1`, created at time 5. -/
def msgU : Message := ⟨"m1", "hola", "c1", "u", false, false, false, none, none, 5, 5⟩

/-- A server state where `u` and `v` are connected and `msgU` is
stored. -/
def stMsg : ServerState :=
  ⟨[("u", "su"), ("v", "sv")], [("u", "su"), ("v", "sv")], [msgU], [], []⟩

/-- First deletion of `msgU` by its author. -/
def delOnce : ServerState × List Emit := Server.deleteMessage envUV stMsg "u" "su" "m1"

/-- Second deletion of the same message by the same author. -/
def delTwice : ServerState × List Emit := Server.deleteMessage envUV delOnce.1 "u" "su" "m1"

/-- The client-side view of conversation `c1` with `msgU` cached as
last message. -/
def chatUV : ChatC := ⟨"c1", false, ["u", "v"], some msgU⟩

/-- A client state with `c1` open, `msgU` loaded, and no unread
messages. -/
def clientStOpen : ClientState := ⟨[chatUV], some chatUV, [msgU], 0⟩

/-- A message from `v` in `c1`, created at time 9. -/
def msgV : Message := ⟨"m2", "hey", "c1", "v", false, false, false, none, none, 9, 9⟩

/-- A client state where no conversation is open. -/
def clientStClosed : ClientState := ⟨[chatUV], none, [], 0⟩

/-- The view of `c1` with `msgV` cached as last message. -/
def chatLastV : ChatC := ⟨"c1", false, ["u", "v"], some msgV⟩


/-! ### Helper lemmas about the map and notification primitives -/

theorem mapHas_eq_isSome (m : List (String × String)) (k : String) :
    mapHas m k = (mapGet m k).isSome := by
  induction m with
  | nil => rfl
  | cons a l ih =>
    by_cases h : (a.1 == k) = true
    · simp [mapHas, mapGet, List.any_cons, List.find?_cons_of_pos _ h, h]
    · have h' : ¬(a.1 == k) = true := h
      simp [mapHas, mapGet, List.any_cons, List.find?_cons_of_neg _ h', h'] at *
      exact ih

theorem mapHas_mapSet (m : List (String × String)) (k v : String) :
    mapHas (mapSet m k v) k = true := by
  unfold mapSet
  by_cases h : mapHas m k = true
  · rw [if_pos h]
    unfold mapHas at *
    rcases List.any_eq_true.mp h with ⟨p, hp, hpk⟩
    refine List.any_eq_true.mpr ⟨(k, v), ?_, by simp⟩
    have hmm : (fun q => if q.1 == k then (k, v) else q) p ∈
        m.map (fun q => if q.1 == k then (k, v) else q) := List.mem_map_of_mem _ hp
    simpa [hpk] using hmm
  · rw [if_neg h]
    unfold mapHas
    exact List.any_eq_true.mpr ⟨(k, v), List.mem_append_right _ (List.mem_singleton.mpr rfl), by simp⟩

theorem mapHas_mapDelete (m : List (String × String)) (k : String) :
    mapHas (mapDelete m k) k = false := by
  unfold mapHas mapDelete
  rw [Bool.eq_false_iff]
  intro hc
  rcases List.any_eq_true.mp hc with ⟨p, hp, hpk⟩
  have h2 := (List.mem_filter.mp hp).2
  rw [hpk] at h2
  simp at h2

theorem notifyPresent_eq (cu : List (String × String)) (ps : List String)
    (ev : String) (pl : EventPayload) :
    notifyPresent cu ps ev pl =
      (ps.filter (fun p => mapHas cu p)).map
        (fun p => Emit.mk ((mapGet cu p).getD "") ev pl) := by
  induction ps with
  | nil => rfl
  | cons p l ih =>
    simp only [notifyPresent, List.filterMap_cons, List.filter_cons] at *
    cases hg : mapGet cu p with
    | none => simp [mapHas_eq_isSome, hg, ih]
    | some sid => simp [mapHas_eq_isSome, hg, ih]

theorem mem_notifyPresent {cu : List (String × String)} {ps : List String}
    {ev : String} {pl : EventPayload} {e : Emit} :
    e ∈ notifyPresent cu ps ev pl ↔
      e.event = ev ∧ e.payload = pl ∧ ∃ p ∈ ps, mapGet cu p = some e.socketId := by
  simp only [notifyPresent, List.mem_filterMap, Option.map_eq_some']
  constructor
  · rintro ⟨p, hp, sid, hsid, rfl⟩
    exact ⟨rfl, rfl, p, hp, hsid⟩
  · rintro ⟨hev, hpl, p, hp, hsid⟩
    refine ⟨p, hp, e.socketId, hsid, ?_⟩
    cases e
    simp_all

theorem getMessageById_update (store : List Message) (mid : String)
    (f : Message → Message) (hf : ∀ m, (f m).id = m.id) :
    getMessageById (updateMessage store mid f) mid =
      (getMessageById store mid).map (fun m => if m.id == mid then f m else m) := by
  induction store with
  | nil => rfl
  | cons a l ih =>
    simp only [updateMessage, List.map_cons, getMessageById] at *
    by_cases h : (a.id == mid) = true
    · rw [if_pos h]
      have hfa : ((f a).id == mid) = true := by rw [hf]; exact h
      have e1 : List.find? (fun m => m.id == mid)
          (f a :: (l.map (fun m => if m.id == mid then f m else m))) = some (f a) :=
        List.find?_cons_of_pos _ hfa
      have e2 : List.find? (fun m => m.id == mid) (a :: l) = some a :=
        List.find?_cons_of_pos _ h
      rw [e1, e2]
      have h' : a.id = mid := by simpa using h
      simp [h']
    · rw [if_neg h]
      have e1 : List.find? (fun m => m.id == mid)
          (a :: (l.map (fun m => if m.id == mid then f m else m))) =
          List.find? (fun m => m.id == mid) (l.map (fun m => if m.id == mid then f m else m)) :=
        List.find?_cons_of_neg _ h
      have e2 : List.find? (fun m => m.id == mid) (a :: l) =
          List.find? (fun m => m.id == mid) l :=
        List.find?_cons_of_neg _ h
      rw [e1, e2, ih]

theorem updateMessage_idem (store : List Message) (mid : String)
    (f : Message → Message) (hf : ∀ m, (f m).id = m.id) (hff : ∀ m, f (f m) = f m) :
    updateMessage (updateMessage store mid f) mid f = updateMessage store mid f := by
  simp only [updateMessage, List.map_map]
  apply List.map_congr_left
  intro m _
  by_cases h : (m.id == mid) = true
  · have : ((f m).id == mid) = true := by rw [hf]; exact h
    simp [Function.comp, h, this, hff]
  · simp [Function.comp, h]

theorem mem_updateMessage_of_found {store : List Message} {mid : String} {orig : Message}
    (h : getMessageById store mid = some orig) (f : Message → Message) :
    f orig ∈ updateMessage store mid f := by
  have h' : store.find? (fun m => m.id == mid) = some orig := h
  have hmem : orig ∈ store := List.mem_of_find?_eq_some h'
  have hp0 := List.find?_some h'
  have hp : (orig.id == mid) = true := hp0
  have hmm : (fun m => if m.id == mid then f m else m) orig ∈ updateMessage store mid f :=
    List.mem_map_of_mem _ hmem
  simpa [hp] using hmm

theorem head?_insertionSort_newerFirst {l : List Message} {nm : Message}
    (h : (l.insertionSort Client.newerFirst).head? = some nm) :
    nm ∈ l ∧ ∀ x ∈ l, x.createdAt ≤ nm.createdAt := by
  cases hs : l.insertionSort Client.newerFirst with
  | nil => rw [hs] at h; simp at h
  | cons a t =>
    rw [hs] at h
    simp only [List.head?_cons, Option.some.injEq] at h
    subst h
    have hsorted := List.sorted_insertionSort Client.newerFirst l
    rw [hs] at hsorted
    constructor
    · have hmem : a ∈ l.insertionSort Client.newerFirst := by
        rw [hs]; exact List.mem_cons_self _ _
      exact (List.mem_insertionSort _).mp hmem
    · intro x hx
      have hx' : x ∈ l.insertionSort Client.newerFirst := (List.mem_insertionSort _).mpr hx
      rw [hs] at hx'
      rcases List.mem_cons.mp hx' with rfl | hxt
      · exact Nat.le_refl _
      · exact List.rel_of_sorted_cons hsorted x hxt

theorem head?_insertionSort_eq_none_iff (l : List Message) :
    (l.insertionSort Client.newerFirst).head? = none ↔ l = [] := by
  rw [List.head?_eq_none_iff]
  constructor
  · intro h
    have := List.length_insertionSort Client.newerFirst l
    rw [h] at this
    exact List.length_eq_zero.mp this.symm
  · rintro rfl
    rfl

/-! ### The claims -/

/-- C1, counterexample: with conversation `c1` shared by `u` and `v`
and `v` connected, after `u` opens channels `s1` and `s2`, closing `s1`
— not `u`'s last open channel, since `s2` is open before and after —
makes the presence query `isUserConnected u` return false and
broadcasts a `user:offline` event for `u` to `v`.  This refutes the
claim that a principal with an open channel is present, that closing a
non-last channel leaves the principal present, and that the offline
event is broadcast only on the final disconnect. -/
theorem C1_presence_counterexample :
    ("u", "s2") ∈ stTwoDevices.openChannels ∧
    Server.isUserConnected stTwoDevices "u" = true ∧
    ("u", "s2") ∈ discNonLast.1.openChannels ∧
    Server.isUserConnected discNonLast.1 "u" = false ∧
    discNonLast.2 = [Emit.mk "sv" "user:offline" (EventPayload.userRef "u")] := by
  decide

/-- C1, amended: the registry keeps at most one channel per principal,
so presence tracks the most recent connect/disconnect for the
principal's id rather than its set of open channels: after
`connection` the principal is present; after any `disconnect` event
bearing its id the principal is absent, and that disconnect broadcasts
`user:offline` exactly to the currently connected other participants of
the principal's conversations — on every disconnect, not only the
final one. -/
theorem C1_presence_amended (env : List ChatRec) (st : ServerState)
    (userId socketId : String) :
    Server.isUserConnected (Server.connection env st userId socketId).1 userId = true ∧
    Server.isUserConnected (Server.disconnect env st userId socketId).1 userId = false ∧
    (∀ e, e ∈ (Server.disconnect env st userId socketId).2 ↔
      (e.event = "user:offline" ∧ e.payload = EventPayload.userRef userId ∧
       ∃ chat ∈ getUserChats env userId, ∃ p ∈ chat.participants, p ≠ userId ∧
         mapGet (mapDelete st.connectedUsers userId) p = some e.socketId)) := by
  refine ⟨?_, ?_, ?_⟩
  · simp only [Server.connection, Server.isUserConnected]
    exact mapHas_mapSet _ _ _
  · simp only [Server.disconnect, Server.isUserConnected]
    exact mapHas_mapDelete _ _
  · intro e
    simp only [Server.disconnect, List.mem_flatMap, mem_notifyPresent, List.mem_filter]
    constructor
    · rintro ⟨chat, hchat, hev, hpl, p, ⟨hp, hpneq⟩, hget⟩
      exact ⟨hev, hpl, chat, hchat, p, hp, by simpa using hpneq, hget⟩
    · rintro ⟨hev, hpl, chat, hchat, p, hp, hpneq, hget⟩
      exact ⟨chat, hchat, hev, hpl, p, ⟨hp, by simpa using hpneq⟩, hget⟩

/-- C2: a send event whose sender is not a participant of the target
conversation is rejected with the Forbidden-style error emitted only to
the originating channel: the result is the unchanged server state —
no message persisted, no conversation timestamp touched — together with
the single error emission, so no `chat:message` event is fanned out. -/
theorem C2_nonparticipant_send_rejected (env : List ChatRec) (st : ServerState)
    (userId socketId chatId content newId : String) (now : Nat)
    (hchat : chatId ≠ "") (hcontent : content ≠ "")
    (hpart : isParticipant env chatId userId = false) :
    Server.sendMessage env st userId socketId chatId content newId now =
      (st, [Emit.mk socketId "error"
        (EventPayload.errMsg "No eres participante de este chat")]) := by
  unfold Server.sendMessage
  have h1 : ¬((chatId == "" || content == "") = true) := by simp [hchat, hcontent]
  rw [if_neg h1]
  have h2 : (!(isParticipant env chatId userId)) = true := by simp [hpart]
  rw [if_pos h2]

/-- C2, witness: user `w` is not a participant of `c1`, and the send is
rejected with only the channel-local error. -/
theorem C2_witness :
    isParticipant envUV "c1" "w" = false ∧
    Server.sendMessage envUV stMsg "w" "sw" "c1" "hola" "m9" 7 =
      (stMsg, [Emit.mk "sw" "error"
        (EventPayload.errMsg "No eres participante de este chat")]) :=
  ⟨by decide,
   C2_nonparticipant_send_rejected envUV stMsg "w" "sw" "c1" "hola" "m9" 7
     (by decide) (by decide) (by decide)⟩

/-- C3: a successful send appends the freshly built message to the
store, touches the conversation's last-message timestamp, and fans
`chat:message` out exactly to the conversation's currently connected
participants (the sender included when connected): the emission list is
the presence-filtered participant list, and a socket receives the event
iff it is the registered socket of some participant. -/
theorem C3_fanout_exact (env : List ChatRec) (st : ServerState)
    (userId socketId chatId content newId : String) (now : Nat)
    (hchat : chatId ≠ "") (hcontent : content ≠ "")
    (hpart : isParticipant env chatId userId = true) :
    (Server.sendMessage env st userId socketId chatId content newId now).1 =
      { st with
        messages := st.messages ++ [Server.mkSentMessage newId chatId userId content now]
        touchedChats := st.touchedChats ++ [chatId] } ∧
    (Server.sendMessage env st userId socketId chatId content newId now).2 =
      ((getChatParticipants env chatId).filter (fun p => mapHas st.connectedUsers p)).map
        (fun p => Emit.mk ((mapGet st.connectedUsers p).getD "") "chat:message"
          (EventPayload.msg (Server.mkSentMessage newId chatId userId content now))) ∧
    (∀ e, e ∈ (Server.sendMessage env st userId socketId chatId content newId now).2 ↔
      (e.event = "chat:message" ∧
       e.payload = EventPayload.msg (Server.mkSentMessage newId chatId userId content now) ∧
       ∃ p ∈ getChatParticipants env chatId,
         mapGet st.connectedUsers p = some e.socketId)) := by
  unfold Server.sendMessage
  have h1 : ¬((chatId == "" || content == "") = true) := by simp [hchat, hcontent]
  rw [if_neg h1]
  have h2 : ¬((!(isParticipant env chatId userId)) = true) := by simp [hpart]
  rw [if_neg h2]
  refine ⟨rfl, notifyPresent_eq _ _ _ _, ?_⟩
  intro e
  exact mem_notifyPresent

/-- C3, witness: `u` sends in `c1` while `u` and `v` are both
connected; the message is persisted and `chat:message` goes exactly to
the sockets of `u` and `v`. -/
theorem C3_witness :
    isParticipant envUV "c1" "u" = true ∧
    (Server.sendMessage envUV stMsg "u" "su" "c1" "hola" "m9" 7).2 =
      [Emit.mk "su" "chat:message"
         (EventPayload.msg (Server.mkSentMessage "m9" "c1" "u" "hola" 7)),
       Emit.mk "sv" "chat:message"
         (EventPayload.msg (Server.mkSentMessage "m9" "c1" "u" "hola" 7))] :=
  ⟨by decide, by
    have h := C3_fanout_exact envUV stMsg "u" "su" "c1" "hola" "m9" 7
      (by decide) (by decide) (by decide)
    rw [h.2.1]
    decide⟩

/-- C7: an edit event whose requesting principal is not the stored
message's author fails with the Forbidden-style error emitted only to
the originating channel, and the server state — in particular the
stored message's `edited` flag and body — is unchanged, with no
`chat:message:update` fan-out. -/
theorem C7_nonauthor_edit_rejected (env : List ChatRec) (st : ServerState)
    (userId socketId messageId content : String) (now : Nat) (orig : Message)
    (hmid : messageId ≠ "") (hcontent : content ≠ "")
    (hfound : getMessageById st.messages messageId = some orig)
    (hauthor : orig.userId ≠ userId) :
    Server.editMessage env st userId socketId messageId content now =
      (st, [Emit.mk socketId "error"
        (EventPayload.errMsg "No tienes permiso para editar este mensaje")]) := by
  unfold Server.editMessage
  have h1 : ¬((messageId == "" || content == "") = true) := by simp [hmid, hcontent]
  rw [if_neg h1, hfound]
  have h2 : (!(orig.userId == userId)) = true := by simp [hauthor]
  simp only [h2, if_true]

/-- C7, witness: `v` is not the author of `m1` (written by `u`); the
edit is rejected with only the channel-local error and the state is
unchanged. -/
theorem C7_witness :
    getMessageById stMsg.messages "m1" = some msgU ∧ msgU.userId ≠ "v" ∧
    Server.editMessage envUV stMsg "v" "sv" "m1" "nuevo" 8 =
      (stMsg, [Emit.mk "sv" "error"
        (EventPayload.errMsg "No tienes permiso para editar este mensaje")]) :=
  ⟨by decide, by decide,
   C7_nonauthor_edit_rejected envUV stMsg "v" "sv" "m1" "nuevo" 8 msgU
     (by decide) (by decide) (by decide) (by decide)⟩

/-- C5, counterexample: `u` deletes its own message `m1` in `c1` twice
while `u` and `v` are connected.  Both calls succeed, but the second
one emits the very same `chat:message:delete` notifications again, so
the second delete is not free of duplicate message-deleted events as
the claim states. -/
theorem C5_duplicate_event_counterexample :
    delOnce.2 = [Emit.mk "su" "chat:message:delete" (EventPayload.msgId "m1"),
                 Emit.mk "sv" "chat:message:delete" (EventPayload.msgId "m1")] ∧
    delTwice.2 = [Emit.mk "su" "chat:message:delete" (EventPayload.msgId "m1"),
                  Emit.mk "sv" "chat:message:delete" (EventPayload.msgId "m1")] := by
  decide

theorem deleteMessage_success (env : List ChatRec) (st : ServerState)
    (userId socketId messageId : String) (orig : Message)
    (hmid : messageId ≠ "")
    (hfound : getMessageById st.messages messageId = some orig)
    (hauthor : orig.userId = userId) :
    Server.deleteMessage env st userId socketId messageId =
      ({ st with messages := updateMessage st.messages messageId (fun m => { m with deleted := true }) },
       notifyPresent st.connectedUsers (getChatParticipants env orig.chatId)
         "chat:message:delete" (EventPayload.msgId messageId)) := by
  unfold Server.deleteMessage
  have h1 : ¬((messageId == "") = true) := by simp [hmid]
  rw [if_neg h1, hfound]
  have h2 : (!(orig.userId == userId)) = false := by simp [hauthor]
  simp [h2]

/-- C5, amended: deleting a message by its author sets `deleted = true`
without removing the stored record (the store keeps its length and the
flagged record), and a second delete of the same message by the same
author produces no error and leaves the state unchanged — but it
re-emits the `chat:message:delete` notification to every connected
participant instead of suppressing the duplicate event. -/
theorem C5_delete_flag_and_second_delete (env : List ChatRec) (st : ServerState)
    (userId socketId messageId : String) (orig : Message)
    (hmid : messageId ≠ "")
    (hfound : getMessageById st.messages messageId = some orig)
    (hauthor : orig.userId = userId) :
    ({ orig with deleted := true } ∈
        (Server.deleteMessage env st userId socketId messageId).1.messages) ∧
    (Server.deleteMessage env st userId socketId messageId).1.messages.length =
      st.messages.length ∧
    (Server.deleteMessage env st userId socketId messageId).2 =
      notifyPresent st.connectedUsers (getChatParticipants env orig.chatId)
        "chat:message:delete" (EventPayload.msgId messageId) ∧
    (Server.deleteMessage env
        (Server.deleteMessage env st userId socketId messageId).1
        userId socketId messageId) =
      ((Server.deleteMessage env st userId socketId messageId).1,
       (Server.deleteMessage env st userId socketId messageId).2) ∧
    (∀ e ∈ (Server.deleteMessage env
        (Server.deleteMessage env st userId socketId messageId).1
        userId socketId messageId).2, e.event ≠ "error") := by
  have hid : orig.id = messageId := by
    have h' : st.messages.find? (fun m => m.id == messageId) = some orig := hfound
    have hp0 := List.find?_some h'
    simpa using hp0
  have hfst := deleteMessage_success env st userId socketId messageId orig hmid hfound hauthor
  have hfound2 : getMessageById
      (updateMessage st.messages messageId (fun m => { m with deleted := true }))
      messageId = some ({ orig with deleted := true }) := by
    rw [getMessageById_update st.messages messageId
      (fun m => { m with deleted := true }) (fun m => rfl), hfound]
    simp [hid]
  have hsnd := deleteMessage_success env
      ({ st with messages := updateMessage st.messages messageId (fun m => { m with deleted := true }) })
      userId socketId messageId ({ orig with deleted := true }) hmid hfound2 hauthor
  have hidem := updateMessage_idem st.messages messageId
    (fun m => { m with deleted := true }) (fun m => rfl) (fun m => rfl)
  refine ⟨?_, ?_, ?_, ?_, ?_⟩
  · rw [hfst]
    exact mem_updateMessage_of_found hfound _
  · rw [hfst]
    simp [updateMessage]
  · rw [hfst]
  · rw [hfst]
    simp only []
    rw [hsnd]
    simp only [hidem]
  · rw [hfst]
    simp only []
    rw [hsnd]
    intro e he
    have hev := (mem_notifyPresent.mp he).1
    rw [hev]
    decide

/-- C5, witness for the amended claim: `u`'s double delete of `m1`
keeps the flagged record, repeats the state, and repeats the
notifications. -/
theorem C5_witness :
    getMessageById stMsg.messages "m1" = some msgU ∧
    ({ msgU with deleted := true } ∈ delOnce.1.messages) ∧
    delTwice = (delOnce.1, delOnce.2) :=
  ⟨by decide,
   (C5_delete_flag_and_second_delete envUV stMsg "u" "su" "m1" msgU
     (by decide) (by decide) (by decide)).1,
   (C5_delete_flag_and_second_delete envUV stMsg "u" "su" "m1" msgU
     (by decide) (by decide) (by decide)).2.2.2.1⟩

/-- C6: a `sendFile` event whose payload cannot be decoded as a
`data:<media-type>;base64,<data>` envelope leaves the server state
completely unchanged — no file saved, no message created, no
conversation timestamp touched — and produces exactly one `error`
emission to the originating channel, so no `chat:message` event is ever
emitted for it. -/
theorem C6_malformed_attachment_rejected (env : List ChatRec) (st : ServerState)
    (userId socketId chatId filename contentType : String) (size : Nat)
    (fileData newFileId newMsgId : String) (now : Nat)
    (hdecode : decodeDataUri fileData = none) :
    (Server.sendFile env st userId socketId chatId filename contentType size fileData
        newFileId newMsgId now).1 = st ∧
    (∃ emsg, (Server.sendFile env st userId socketId chatId filename contentType size fileData
        newFileId newMsgId now).2 =
      [Emit.mk socketId "error" (EventPayload.errMsg emsg)]) := by
  unfold Server.sendFile
  by_cases h1 : (chatId == "" || filename == "" || fileData == "") = true
  · rw [if_pos h1]
    exact ⟨rfl, _, rfl⟩
  · rw [if_neg h1]
    by_cases h2 : (!(isParticipant env chatId userId)) = true
    · rw [if_pos h2]
      exact ⟨rfl, _, rfl⟩
    · rw [if_neg h2, hdecode]
      exact ⟨rfl, _, rfl⟩

/-- C6, witness: the payload `hello` is not a decodable data URI; the
send-file event is rejected with only the channel-local error and the
state is unchanged. -/
theorem C6_witness :
    decodeDataUri "hello" = none ∧
    (Server.sendFile envUV stMsg "u" "su" "c1" "a.txt" "text/plain" 5 "hello"
        "f1" "m9" 7).1 = stMsg ∧
    (∃ emsg, (Server.sendFile envUV stMsg "u" "su" "c1" "a.txt" "text/plain" 5 "hello"
        "f1" "m9" 7).2 = [Emit.mk "su" "error" (EventPayload.errMsg emsg)]) :=
  ⟨by decide,
   (C6_malformed_attachment_rejected envUV stMsg "u" "su" "c1" "a.txt" "text/plain" 5
     "hello" "f1" "m9" 7 (by decide)).1,
   (C6_malformed_attachment_rejected envUV stMsg "u" "su" "c1" "a.txt" "text/plain" 5
     "hello" "f1" "m9" 7 (by decide)).2⟩

/-- C4, counterexample: with the channel connected, conversation `c1`
open and one message loaded, the client `sendMessage` emits the
`sendMessage` event but returns the local state unchanged: no local
message — pending or otherwise — is appended to the view (the
`MessageType` model has no pending mark at all), refuting the claimed
optimistic append-and-reconcile behaviour. -/
theorem C4_no_optimistic_append_counterexample :
    Client.sendMessage (some "u") true clientStOpen "c1" "hello" =
      (clientStOpen, [ClientEffect.emitSendMessage "c1" "hello"]) := by
  decide

/-- C4, amended: while connected, the client `sendMessage` only emits
the event over the channel and leaves the local state untouched; the
sent message enters the local view when (and only when) the
`chat:message` confirmation for the open conversation arrives, which
`handleNewMessage` appends to the active view. -/
theorem C4_send_emit_then_confirm (uid : String) (st : ClientState)
    (chatId content : String)
    (hchat : chatId ≠ "") (hcontent : trimIsEmpty content = false) :
    Client.sendMessage (some uid) true st chatId content =
      (st, [ClientEffect.emitSendMessage chatId content]) ∧
    (∀ ac m, st.activeChat = some ac → m.chatId = ac.id →
      (Client.handleNewMessage (some uid) st m).1.activeChatMessages =
        st.activeChatMessages ++ [m]) := by
  constructor
  · unfold Client.sendMessage
    have h1 : ¬(((some uid : Option String).isNone || chatId == "" || trimIsEmpty content) = true) := by
      simp [hchat, hcontent]
    rw [if_neg h1]
    simp
  · intro ac m hac hm
    unfold Client.handleNewMessage
    rw [hac]
    have hb : (m.chatId == ac.id) = true := by simp [hm]
    simp only [hb]
    cases h : m.userId == uid <;> simp

/-- C4, witness for the amended claim: sending `hello` in `c1` while
connected emits only the event; the later `chat:message` confirmation
`msgV` is appended to the open view. -/
theorem C4_witness :
    Client.sendMessage (some "u") true clientStOpen "c1" "hello" =
      (clientStOpen, [ClientEffect.emitSendMessage "c1" "hello"]) ∧
    (Client.handleNewMessage (some "u") clientStOpen msgV).1.activeChatMessages =
      clientStOpen.activeChatMessages ++ [msgV] :=
  ⟨(C4_send_emit_then_confirm "u" clientStOpen "c1" "hello" (by decide) (by decide)).1,
   (C4_send_emit_then_confirm "u" clientStOpen "c1" "hello" (by decide) (by decide)).2
     chatUV msgV rfl rfl⟩

/-- C8: for an incoming `chat:message` on the client, (1) a message of
the currently open conversation is appended to the active view and the
unread counter is untouched; (2) otherwise the unread counter is
incremented exactly when the author is not the local principal, the
view untouched; and (3) the chat list is rewritten by
`lastMessageUpdate`, which, for the message's conversation, replaces a
cached last-message projection iff the incoming creation time is
strictly newer, and leaves every other conversation unchanged. -/
theorem C8_message_created_client (uid : String) (st : ClientState) (m : Message) :
    (∀ ac, st.activeChat = some ac → m.chatId = ac.id →
      ((Client.handleNewMessage (some uid) st m).1.activeChatMessages =
          st.activeChatMessages ++ [m] ∧
       (Client.handleNewMessage (some uid) st m).1.unreadMessagesCount =
          st.unreadMessagesCount)) ∧
    ((∀ ac, st.activeChat = some ac → m.chatId ≠ ac.id) → m.userId ≠ uid →
      ((Client.handleNewMessage (some uid) st m).1.unreadMessagesCount =
          st.unreadMessagesCount + 1 ∧
       (Client.handleNewMessage (some uid) st m).1.activeChatMessages =
          st.activeChatMessages)) ∧
    ((∀ ac, st.activeChat = some ac → m.chatId ≠ ac.id) → m.userId = uid →
      ((Client.handleNewMessage (some uid) st m).1.unreadMessagesCount =
          st.unreadMessagesCount ∧
       (Client.handleNewMessage (some uid) st m).1.activeChatMessages =
          st.activeChatMessages)) ∧
    (Client.handleNewMessage (some uid) st m).1.chats =
      st.chats.map (Client.lastMessageUpdate m) ∧
    (∀ chat lm, chat.id = m.chatId → chat.lastMessage = some lm →
      (Client.lastMessageUpdate m chat).lastMessage =
        (if lm.createdAt < m.createdAt then some m else some lm)) ∧
    (∀ chat, chat.id ≠ m.chatId → Client.lastMessageUpdate m chat = chat) := by
  refine ⟨?_, ?_, ?_, ?_, ?_, ?_⟩
  · intro ac hac hm
    unfold Client.handleNewMessage
    rw [hac]
    have hb : (m.chatId == ac.id) = true := by simp [hm]
    simp only [hb]
    cases h : m.userId == uid <;> simp
  · intro hnot hne
    have hb : (m.userId == uid) = false := by simp [hne]
    unfold Client.handleNewMessage
    cases hac : st.activeChat with
    | none => simp [hb]
    | some ac =>
      have hne2 : (m.chatId == ac.id) = false := by simp [hnot ac hac]
      simp [hne2, hb]
  · intro hnot heq
    have hb : (m.userId == uid) = true := by simp [heq]
    unfold Client.handleNewMessage
    cases hac : st.activeChat with
    | none => simp [hb]
    | some ac =>
      have hne2 : (m.chatId == ac.id) = false := by simp [hnot ac hac]
      simp [hne2, hb]
  · unfold Client.handleNewMessage Client.updateChatWithLastMessage
    cases hac : st.activeChat with
    | none =>
      dsimp only
      split_ifs <;> rfl
    | some ac =>
      dsimp only
      split_ifs <;> rfl
  · intro chat lm hcid hlm
    unfold Client.lastMessageUpdate
    have hb : (chat.id == m.chatId) = true := by simp [hcid]
    rw [hlm]
    simp only [hb, if_true]
    by_cases hlt : lm.createdAt < m.createdAt
    · simp [hlt]
    · simp [hlt, hlm]
  · intro chat hne
    unfold Client.lastMessageUpdate
    have hb : (chat.id == m.chatId) = false := by simp [hne]
    simp [hb]

/-- C8, witness: the confirmation `msgV` (author `v`, conversation
`c1`) is appended to the open `c1` view without touching the unread
counter; with no conversation open the same message increments the
unread counter; and it replaces the older cached projection `msgU`. -/
theorem C8_witness :
    ((Client.handleNewMessage (some "u") clientStOpen msgV).1.activeChatMessages =
        clientStOpen.activeChatMessages ++ [msgV] ∧
     (Client.handleNewMessage (some "u") clientStOpen msgV).1.unreadMessagesCount =
        clientStOpen.unreadMessagesCount) ∧
    (Client.handleNewMessage (some "u") clientStClosed msgV).1.unreadMessagesCount =
      clientStClosed.unreadMessagesCount + 1 ∧
    (Client.lastMessageUpdate msgV chatUV).lastMessage =
      (if msgU.createdAt < msgV.createdAt then some msgV else some msgU) :=
  ⟨(C8_message_created_client "u" clientStOpen msgV).1 chatUV rfl rfl,
   ((C8_message_created_client "u" clientStClosed msgV).2.1
     (fun ac hac => by simp [clientStClosed] at hac) (by decide)).1,
   (C8_message_created_client "u" clientStOpen msgV).2.2.2.2.1 chatUV msgU rfl rfl⟩

/-- C9: applying `handleNewMessage` and then `handleMessageDelete` for
the same message id leaves the loaded view without any message of that
id; the chat list is rewritten by `deleteChatUpdate` over the loaded
(pre-delete) view, and whenever the deleted id was a chat's cached
last-message projection, the recomputed projection is `none` exactly
when no message of that chat remains in the loaded set, and otherwise
is a remaining message of maximal creation time. -/
theorem C9_create_then_delete (cu : Option String) (st : ClientState) (m : Message) :
    (∀ msg ∈ (Client.handleMessageDelete
        (Client.handleNewMessage cu st m).1 m.id).activeChatMessages, msg.id ≠ m.id) ∧
    (Client.handleMessageDelete (Client.handleNewMessage cu st m).1 m.id).chats =
      (Client.handleNewMessage cu st m).1.chats.map
        (Client.deleteChatUpdate (Client.handleNewMessage cu st m).1.activeChatMessages m.id) ∧
    (∀ loaded chat lm, chat.lastMessage = some lm → lm.id = m.id →
      (((Client.deleteChatUpdate loaded m.id chat).lastMessage = none ↔
         loaded.filter (fun msg => !(msg.id == m.id) && msg.chatId == chat.id) = []) ∧
       (∀ nm, (Client.deleteChatUpdate loaded m.id chat).lastMessage = some nm →
         nm ∈ loaded.filter (fun msg => !(msg.id == m.id) && msg.chatId == chat.id) ∧
         ∀ x ∈ loaded.filter (fun msg => !(msg.id == m.id) && msg.chatId == chat.id),
           x.createdAt ≤ nm.createdAt))) := by
  refine ⟨?_, ?_, ?_⟩
  · intro msg hmsg
    have hf := (List.mem_filter.mp hmsg).2
    simpa using hf
  · rfl
  · intro loaded chat lm hlm hlmid
    unfold Client.deleteChatUpdate
    rw [hlm]
    have hb : (lm.id == m.id) = true := by simp [hlmid]
    simp only [hb, if_true]
    constructor
    · exact head?_insertionSort_eq_none_iff _
    · intro nm hnm
      exact head?_insertionSort_newerFirst hnm

/-- C9, witness: after the confirmation `msgV` arrives in the open
`c1` view and `m2` is then deleted, no message with id `m2` remains
loaded; for a chat whose cached projection was `msgV`, the recomputed
projection is a remaining message of maximal creation time, namely
`msgU`. -/
theorem C9_witness :
    (∀ msg ∈ (Client.handleMessageDelete
        (Client.handleNewMessage (some "u") clientStOpen msgV).1
        msgV.id).activeChatMessages, msg.id ≠ msgV.id) ∧
    (msgU ∈ ([msgU, msgV].filter
        (fun msg => !(msg.id == msgV.id) && msg.chatId == chatLastV.id)) ∧
     ∀ x ∈ ([msgU, msgV].filter
        (fun msg => !(msg.id == msgV.id) && msg.chatId == chatLastV.id)),
       x.createdAt ≤ msgU.createdAt) :=
  ⟨(C9_create_then_delete (some "u") clientStOpen msgV).1,
   (C9_create_then_delete (some "u") clientStOpen msgV).2.2
     [msgU, msgV] chatLastV msgV rfl rfl |>.2 msgU (by decide)⟩

/-- C10: the client `sendMessage` and `editMessage` are no-ops when the
principal is unauthenticated or the content trims to the empty string:
the local state is returned unchanged and no effect — no socket
emission, no REST fallback, no reload — is produced. -/
theorem C10_blank_content_noop (cu : Option String) (connected : Bool)
    (st : ClientState) (chatId messageId content : String)
    (h : cu = none ∨ trimIsEmpty content = true) :
    Client.sendMessage cu connected st chatId content = (st, []) ∧
    Client.editMessage cu connected st messageId content = (st, []) := by
  rcases h with rfl | ht
  · exact ⟨rfl, rfl⟩
  · constructor
    · unfold Client.sendMessage
      simp [ht]
    · unfold Client.editMessage
      simp [ht]

/-- C10, witness: with a user authenticated and the channel connected,
whitespace-only content makes both calls return the unchanged state and
no effects. -/
theorem C10_witness :
    trimIsEmpty "   " = true ∧
    Client.sendMessage (some "u") true clientStOpen "c1" "   " = (clientStOpen, []) ∧
    Client.editMessage (some "u") true clientStOpen "m1" "   " = (clientStOpen, []) :=
  ⟨by decide,
   (C10_blank_content_noop (some "u") true clientStOpen "c1" "m1" "   "
     (Or.inr (by decide))).1,
   (C10_blank_content_noop (some "u") true clientStOpen "c1" "m1" "   "
     (Or.inr (by decide))).2⟩
